import Mathlib

/-!
# ecdsa_gen

A shallow embedding of `ecdsa_gen.go`: the utility generates an ECDSA P-384 key
pair, encodes both halves as PEM, writes them to two files, reads the files
back, decodes them and compares the result with the generated keys; when
storing or checking returns an error the two files are removed again.

* Go values returned next to an `error` are kept as the tuples the source
  returns; a nil pointer or nil error is `none`, a nil byte slice is `[]`.
* A run-time panic (a nil pointer dereference) is the `panic` outcome.
* The Go standard library (`encoding/pem`, `crypto/x509`) is a parameter, the
  structure `Lib`.
* The files on disk are an explicit state, `FS`: which file each path leads to
  (two path strings may lead to one file), what is there (a regular file with
  its permission bits, a device that discards what is written to it, a
  directory), and the umask of the process. The process owns the files and is
  not root. Permissions of parent directories, links that `os.Remove` treats
  apart from their target, and a full disk are not part of the state.
-/

namespace EcdsaGen

/-! ## Data model -/

/-- A byte slice. -/
abbrev Bytes := List Nat

/-- A Go `error`, identified by its message. -/
abbrev Error := String

/-- The named curves of `crypto/elliptic`. -/
inductive Curve where
  | P224
  | P256
  | P384
  | P521
deriving DecidableEq, Repr

/-- The type `ecdsa.PublicKey`: a curve and a point on it. -/
structure PublicKey where
  curve : Curve
  x : Nat
  y : Nat
deriving DecidableEq, Repr

/-- The type `ecdsa.PrivateKey`: the embedded public key and the scalar `D`. -/
structure PrivateKey where
  publicKey : PublicKey
  d : Nat
deriving DecidableEq, Repr

/-- The dynamic type of the value `x509.ParsePKIXPublicKey` returns. -/
inductive AnyPublicKey where
  | rsa (n e : Nat)
  | dsa (y : Nat)
  | ecdsa (k : PublicKey)
  | ed25519 (k : Bytes)
  | ecdh (k : Bytes)
deriving DecidableEq, Repr

/-- The type `pem.Block`, with the two fields the program sets and reads. -/
structure Block where
  type : String
  bytes : Bytes
deriving DecidableEq, Repr

/-- The library calls of `encode` and `decode`. `pemDecode` is `none` when the
input holds no PEM block (`pem.Decode` then returns a nil block); the rest of the
input, which the program drops, is left out. -/
structure Lib where
  pemEncodeToMemory : Block → Bytes
  pemDecode : Bytes → Option Block
  marshalECPrivateKey : PrivateKey → Except Error Bytes
  parseECPrivateKey : Bytes → Except Error PrivateKey
  marshalPKIXPublicKey : AnyPublicKey → Except Error Bytes
  parsePKIXPublicKey : Bytes → Except Error AnyPublicKey

/-- How a Go call ends: it returns, or it panics. -/
inductive Outcome (α : Type) where
  | ret (a : α)
  | panic (msg : String)
deriving DecidableEq, Repr

/-- The message of the run-time panic on reading a field through a nil pointer. -/
def nilDeref : String :=
  "runtime error: invalid memory address or nil pointer dereference"

/-- The two file names, the flags `-pr` and `-pu`. -/
structure Config where
  privateFName : String
  publicFName : String
deriving DecidableEq, Repr

/-- The flag defaults of `init`. -/
def defaultConfig : Config := ⟨"private.pem", "public.pem"⟩

/-! ## The files on disk -/

/-- The identity of a file. Path strings that lead to one file, such as
`key.pem` and `./key.pem`, have one identity. -/
abbrev FileId := String

/-- What is at a file identity: a regular file with its permission bits and
content, a device that accepts and discards writes and reads as empty (such as
`/dev/null`), or a non-empty directory. -/
inductive Node where
  | file (mode : Nat) (data : Bytes)
  | device
  | dir
deriving DecidableEq, Repr

/-- The file system: the file each path leads to, what is at each file (`none`
when nothing is there), and the umask of the process. -/
structure FS where
  entry : String → FileId
  node : FileId → Option Node
  umask : Nat

/-- What the path `name` leads to. -/
def FS.named (fs : FS) (name : String) : Option Node :=
  fs.node (fs.entry name)

/-- The file system with `nd` at the file `name` leads to. -/
def FS.put (fs : FS) (name : String) (nd : Node) : FS :=
  ⟨fs.entry, fun i => if i = fs.entry name then some nd else fs.node i, fs.umask⟩

/-- The file system with nothing at the file `name` leads to. -/
def FS.drop (fs : FS) (name : String) : FS :=
  ⟨fs.entry, fun i => if i = fs.entry name then none else fs.node i, fs.umask⟩

/-- The owner may read a file of this mode (bit `0400`). -/
def ownerRead (mode : Nat) : Bool := mode.testBit 8

/-- The owner may write a file of this mode (bit `0200`). -/
def ownerWrite (mode : Nat) : Bool := mode.testBit 7

/-- The mode of a file created with `perm` under `umask`. -/
def createMode (perm umask : Nat) : Nat := perm &&& (0o777 ^^^ (umask &&& 0o777))

/-- The call `ioutil.WriteFile(name, data, perm)`: opens the file for writing,
creating it with `perm` under the umask when nothing is there and truncating it
otherwise, and writes `data`. An existing file keeps its mode and must be
writable; a device takes the data and keeps nothing; a directory is refused. -/
def writeFile (fs : FS) (name : String) (data : Bytes) (perm : Nat) : Option Error × FS :=
  match fs.named name with
  | none => (none, fs.put name (Node.file (createMode perm fs.umask) data))
  | some (Node.file mode _) =>
    if ownerWrite mode then (none, fs.put name (Node.file mode data))
    else (some ("open " ++ name ++ ": permission denied"), fs)
  | some Node.device => (none, fs)
  | some Node.dir => (some ("open " ++ name ++ ": is a directory"), fs)

/-- The call `ioutil.ReadFile(name)`: the content of a readable file; nothing
from a device; an error when nothing is there, on a file the owner may not read
and on a directory. -/
def readFile (fs : FS) (name : String) : Bytes × Option Error :=
  match fs.named name with
  | none => ([], some ("open " ++ name ++ ": no such file or directory"))
  | some (Node.file mode data) =>
    if ownerRead mode then (data, none)
    else ([], some ("open " ++ name ++ ": permission denied"))
  | some Node.device => ([], none)
  | some Node.dir => ([], some ("read " ++ name ++ ": is a directory"))

/-- The call `os.Remove(name)`: removes what the path leads to; fails when
nothing is there and on a non-empty directory. -/
def remove (fs : FS) (name : String) : Option Error × FS :=
  match fs.named name with
  | none => (some ("remove " ++ name ++ ": no such file or directory"), fs)
  | some Node.dir => (some ("remove " ++ name ++ ": directory not empty"), fs)
  | some _ => (none, fs.drop name)

/-! ## The program -/

/-- The function `generate`; `gen` is what `ecdsa.GenerateKey(elliptic.P384(),
rand.Reader)` returned. -/
def generate (gen : Except Error PrivateKey) :
    Option PrivateKey × Option PublicKey × Option Error :=
  match gen with
  | .error err => (none, none, some err)
  | .ok pri => (some pri, some pri.publicKey, none)

/-- The function `encode`. -/
def encode (L : Lib) (pri : PrivateKey) (pub : PublicKey) : Bytes × Bytes × Option Error :=
  match L.marshalECPrivateKey pri with
  | .error err => ([], [], some err)
  | .ok x509Pri =>
    let pemPri := L.pemEncodeToMemory ⟨"ECDSA PRIVATE KEY", x509Pri⟩
    match L.marshalPKIXPublicKey (AnyPublicKey.ecdsa pub) with
    | .error err => ([], [], some err)
    | .ok x509Pub =>
      let pemPub := L.pemEncodeToMemory ⟨"ECDSA PUBLIC KEY", x509Pub⟩
      (pemPri, pemPub, none)

/-- The function `decode`. Neither result of `pem.Decode` is tested for nil
before its `Bytes` field is read; the `err` tested after the second
`pem.Decode` is still the one `x509.ParseECPrivateKey` returned. -/
def decode (L : Lib) (pri pub : Bytes) :
    Outcome (Option PrivateKey × Option PublicKey × Option Error) :=
  match L.pemDecode pri with
  | none => .panic nilDeref
  | some pemBlock =>
    match L.parseECPrivateKey pemBlock.bytes with
    | .error err => .ret (none, none, some err)
    | .ok priDec =>
      let err : Option Error := none
      let pemBlock := L.pemDecode pub
      match err with
      | some err => .ret (none, none, some err)
      | none =>
        match pemBlock with
        | none => .panic nilDeref
        | some pemBlock =>
          match L.parsePKIXPublicKey pemBlock.bytes with
          | .error err => .ret (none, none, some err)
          | .ok genericPub =>
            match genericPub with
            | AnyPublicKey.ecdsa pubDec => .ret (some priDec, some pubDec, none)
            | _ => .ret (none, none, some "can not assert the public key")

/-- The function `store`. -/
def store (cfg : Config) (pri pub : Bytes) (fs : FS) : Option Error × FS :=
  match writeFile fs cfg.privateFName pri 0o755 with
  | (some err, fs1) => (some err, fs1)
  | (none, fs1) =>
    match writeFile fs1 cfg.publicFName pub 0o755 with
    | (some err, fs2) => (some err, fs2)
    | (none, fs2) => (none, fs2)

/-- The function `get`. -/
def get (cfg : Config) (fs : FS) : Bytes × Bytes × Option Error :=
  match readFile fs cfg.privateFName with
  | (_, some err) => ([], [], some err)
  | (pri, none) =>
    match readFile fs cfg.publicFName with
    | (_, some err) => ([], [], some err)
    | (pub, none) => (pri, pub, none)

/-- The function `check`. `reflect.DeepEqual` on two key pointers is equality
of the keys they point to. When the public keys differ the source builds an
error with `fmt.Errorf` and drops it, then falls through to `return nil`. -/
def check (L : Lib) (cfg : Config) (pri : PrivateKey) (pub : PublicKey) (fs : FS) :
    Outcome (Option Error) :=
  match get cfg fs with
  | (_, _, some err) => .ret (some err)
  | (encPri, encPub, none) =>
    match decode L encPri encPub with
    | .panic msg => .panic msg
    | .ret (_, _, some err) => .ret (some err)
    | .ret (decPri, decPub, none) =>
      if some pri ≠ decPri then
        .ret (some "private keys dont match")
      else
        let _dropped : Option Error :=
          if some pub ≠ decPub then some "public keys dont match" else none
        .ret none

/-- The function `cleanup`, on the files; `callCleanup` adds the line it logs
first, `removingLine`. -/
def cleanup (cfg : Config) (fs : FS) : Option Error × FS :=
  match remove fs cfg.privateFName with
  | (some err, fs1) => (some err, fs1)
  | (none, fs1) =>
    match remove fs1 cfg.publicFName with
    | (some err, fs2) => (some err, fs2)
    | (none, fs2) => (none, fs2)

/-- The verb `%q` on a file name (escapes inside the name are left out). -/
def quote (s : String) : String := "\"" ++ s ++ "\""

/-- The line `cleanup` logs before it removes anything. -/
def removingLine (cfg : Config) : String :=
  "removing " ++ quote cfg.privateFName ++ ", " ++ quote cfg.publicFName ++
    " from current folder"

/-- The line `main` logs on success. -/
def addedLine (cfg : Config) : String :=
  quote cfg.privateFName ++ ", " ++ quote cfg.publicFName ++
    " were added to the current folder"

/-- The functions `main` calls. -/
inductive Call where
  | generate
  | encode
  | store
  | check
  | cleanup
deriving DecidableEq, Repr

/-- How the process ends: `main` returns (exit status 0), `log.Fatal` exits with
status 1, or a panic ends it. -/
inductive Exit where
  | returned
  | fatal
  | panicked (msg : String)
deriving DecidableEq, Repr

/-- A run of `main`: the calls made in order, the lines logged, the files, the
way the process ends. -/
structure Run where
  calls : List Call
  log : List String
  fs : FS
  exit : Exit

/-- The call `generate()` in a run. -/
def callGenerate (gen : Except Error PrivateKey) (r : Run) :
    (Option PrivateKey × Option PublicKey × Option Error) × Run :=
  (generate gen, ⟨r.calls ++ [Call.generate], r.log, r.fs, r.exit⟩)

/-- The call `encode(pri, pub)` in a run. -/
def callEncode (L : Lib) (pri : PrivateKey) (pub : PublicKey) (r : Run) :
    (Bytes × Bytes × Option Error) × Run :=
  (encode L pri pub, ⟨r.calls ++ [Call.encode], r.log, r.fs, r.exit⟩)

/-- The call `store(encPri, encPub)` in a run: the files become what `store`
leaves. -/
def callStore (cfg : Config) (encPri encPub : Bytes) (r : Run) : Option Error × Run :=
  match store cfg encPri encPub r.fs with
  | (err, fs1) => (err, ⟨r.calls ++ [Call.store], r.log, fs1, r.exit⟩)

/-- The call `check(pri, pub)` in a run. -/
def callCheck (L : Lib) (cfg : Config) (pri : PrivateKey) (pub : PublicKey) (r : Run) :
    Outcome (Option Error) × Run :=
  (check L cfg pri pub r.fs, ⟨r.calls ++ [Call.check], r.log, r.fs, r.exit⟩)

/-- The call `cleanup()` in a run: it logs its line, and the files become what
`cleanup` leaves. -/
def callCleanup (cfg : Config) (r : Run) : Option Error × Run :=
  match cleanup cfg r.fs with
  | (err, fs1) => (err, ⟨r.calls ++ [Call.cleanup], r.log ++ [removingLine cfg], fs1, r.exit⟩)

/-- The call `log.Print(msg)`. -/
def logPrint (msg : String) (r : Run) : Run :=
  ⟨r.calls, r.log ++ [msg], r.fs, r.exit⟩

/-- The call `log.Fatal(msg)`: logs and exits with status 1. -/
def logFatal (msg : String) (r : Run) : Run :=
  ⟨r.calls, r.log ++ [msg], r.fs, Exit.fatal⟩

/-- The process dies of a panic. -/
def panicWith (msg : String) (r : Run) : Run :=
  ⟨r.calls, r.log, r.fs, Exit.panicked msg⟩

/-- The deferred function of `main`, run when `main` returns or panics; `err`
is the variable `err` of `main` at that moment. -/
def deferred (cfg : Config) (err : Option Error) (r : Run) : Run :=
  match err with
  | none => r
  | some _ =>
    match callCleanup cfg r with
    | (some cerr, r1) => logFatal cerr r1
    | (none, r1) => r1

/-- The function `main`, from the result `gen` of `ecdsa.GenerateKey` and the
files `fs` on disk. `log.Fatal` before the `defer` statement ends the process
at once. When `check` panics the assignment to `err` has not happened, so the
deferred function sees the nil `err` that `store` returned, and the panic goes
on after it. The two branches with a nil key next to a nil error are never taken
(`generate` returns both keys whenever its error is nil); in them `encode` would
read through a nil pointer. -/
def main (L : Lib) (cfg : Config) (gen : Except Error PrivateKey) (fs : FS) : Run :=
  match callGenerate gen ⟨[], [], fs, Exit.returned⟩ with
  | ((_, _, some err), r1) => logFatal err r1
  | ((none, _, none), r1) => panicWith nilDeref r1
  | ((_, none, none), r1) => panicWith nilDeref r1
  | ((some pri, some pub, none), r1) =>
    match callEncode L pri pub r1 with
    | ((_, _, some err), r2) => logFatal err r2
    | ((encPri, encPub, none), r2) =>
      match callStore cfg encPri encPub r2 with
      | (some err, r3) => deferred cfg (some err) (logPrint err r3)
      | (none, r3) =>
        match callCheck L cfg pri pub r3 with
        | (.panic msg, r4) => panicWith msg (deferred cfg none r4)
        | (.ret (some err), r4) => deferred cfg (some err) (logPrint err r4)
        | (.ret none, r4) => deferred cfg none (logPrint (addedLine cfg) r4)

/-! ## A concrete library and concrete inputs

`sampleLib` has the interface of `Lib` with a toy wire format: an armored
block is the length of its label, the label's characters and the body; a key is
a tag followed by its numbers. It serves to evaluate the program. -/

/-- The number that stands for a curve in the toy format. -/
def curveCode : Curve → Nat
  | Curve.P224 => 1
  | Curve.P256 => 2
  | Curve.P384 => 3
  | Curve.P521 => 4

/-- The curve a number stands for. -/
def codeCurve : Nat → Option Curve
  | 1 => some Curve.P224
  | 2 => some Curve.P256
  | 3 => some Curve.P384
  | 4 => some Curve.P521
  | _ => none

/-- Toy armor: label length, label, body. -/
def sampleEncodeToMemory (b : Block) : Bytes :=
  b.type.data.length :: (b.type.data.map Char.toNat ++ b.bytes)

/-- Reads toy armor; `none` when the input is empty or shorter than its label. -/
def sampleDecode : Bytes → Option Block
  | [] => none
  | n :: rest =>
    if n ≤ rest.length then
      some ⟨String.mk ((rest.take n).map Char.ofNat), rest.drop n⟩
    else none

/-- Toy encoding of a private key. -/
def sampleMarshalEC (k : PrivateKey) : Except Error Bytes :=
  .ok [curveCode k.publicKey.curve, k.publicKey.x, k.publicKey.y, k.d]

/-- Reads the toy encoding of a private key. -/
def sampleParseEC : Bytes → Except Error PrivateKey
  | [c, x, y, d] =>
    match codeCurve c with
    | some cv => .ok ⟨⟨cv, x, y⟩, d⟩
    | none => .error "x509: unknown elliptic curve"
  | _ => .error "x509: failed to parse EC private key"

/-- Toy encoding of a public key of any kind. -/
def sampleMarshalPKIX : AnyPublicKey → Except Error Bytes
  | AnyPublicKey.rsa n e => .ok [1, n, e]
  | AnyPublicKey.dsa y => .ok [2, y]
  | AnyPublicKey.ecdsa k => .ok [3, curveCode k.curve, k.x, k.y]
  | AnyPublicKey.ed25519 k => .ok (4 :: k)
  | AnyPublicKey.ecdh k => .ok (5 :: k)

/-- Reads the toy encoding of a public key. -/
def sampleParsePKIX : Bytes → Except Error AnyPublicKey
  | [1, n, e] => .ok (AnyPublicKey.rsa n e)
  | [2, y] => .ok (AnyPublicKey.dsa y)
  | [3, c, x, y] =>
    match codeCurve c with
    | some cv => .ok (AnyPublicKey.ecdsa ⟨cv, x, y⟩)
    | none => .error "x509: unsupported elliptic curve"
  | 4 :: k => .ok (AnyPublicKey.ed25519 k)
  | 5 :: k => .ok (AnyPublicKey.ecdh k)
  | _ => .error "x509: failed to parse public key"

/-- The concrete library. -/
def sampleLib : Lib :=
  ⟨sampleEncodeToMemory, sampleDecode, sampleMarshalEC, sampleParseEC,
    sampleMarshalPKIX, sampleParsePKIX⟩

/-- The hypothesis that `pem.Decode` inverts `pem.EncodeToMemory` on the blocks
with label `t`. -/
def PemInverts (L : Lib) (t : String) : Prop :=
  ∀ bs : Bytes, L.pemDecode (L.pemEncodeToMemory ⟨t, bs⟩) = some ⟨t, bs⟩

/-- The hypothesis that `x509.ParseECPrivateKey` inverts
`x509.MarshalECPrivateKey` on the key `k`. -/
def ECInverts (L : Lib) (k : PrivateKey) : Prop :=
  ∀ bs : Bytes, L.marshalECPrivateKey k = .ok bs → L.parseECPrivateKey bs = .ok k

/-- The hypothesis that `x509.ParsePKIXPublicKey` inverts
`x509.MarshalPKIXPublicKey` on the ECDSA key `q`. -/
def PKIXInverts (L : Lib) (q : PublicKey) : Prop :=
  ∀ bs : Bytes, L.marshalPKIXPublicKey (AnyPublicKey.ecdsa q) = .ok bs →
    L.parsePKIXPublicKey bs = .ok (AnyPublicKey.ecdsa q)

/-- Whether a read of `name` right after a successful write of `data` to it
returns `data`: the path leads to a regular file the owner may read (one that is
there, or one the write creates readable under the umask), or to a device and
`data` is empty. -/
def readsBack (fs : FS) (name : String) (data : Bytes) : Bool :=
  match fs.named name with
  | none => ownerRead (createMode 0o755 fs.umask)
  | some (Node.file mode _) => ownerRead mode
  | some Node.device => data.isEmpty
  | some Node.dir => false

/-- A P-384 key pair with small numbers. -/
def keyA : PrivateKey := ⟨⟨Curve.P384, 5, 7⟩, 11⟩

/-- Another P-384 key pair. -/
def keyB : PrivateKey := ⟨⟨Curve.P384, 6, 8⟩, 13⟩

/-- The paths `./key.pem` and `key.pem` lead to one file; every other path leads
to a file of its own. -/
def sampleEntry (name : String) : FileId :=
  if name = "./key.pem" then "key.pem" else name

/-- The empty disk, with umask `022`. -/
def emptyFS : FS := ⟨sampleEntry, fun _ => none, 0o022⟩

/-- Both flags name the same file. -/
def sameNameConfig : Config := ⟨"key.pem", "key.pem"⟩

/-- The flags name one file by two path strings. -/
def aliasConfig : Config := ⟨"key.pem", "./key.pem"⟩

/-- The private key goes to `/dev/null`. -/
def devNullConfig : Config := ⟨"/dev/null", "public.pem"⟩

/-- A disk with the device `/dev/null` and nothing else. -/
def devNullFS : FS :=
  ⟨sampleEntry, fun i => if i = "/dev/null" then some Node.device else none, 0o022⟩

/-- A disk on which `private.pem` is a file of mode `0200`: the owner may write
it and may not read it. -/
def writeOnlyFS : FS :=
  ⟨sampleEntry, fun i => if i = "private.pem" then some (Node.file 0o200 [9]) else none,
    0o022⟩

/-- A disk on which the public-key file is there and the private-key file is
not. -/
def publicOnlyFS : FS :=
  ⟨sampleEntry, fun i => if i = "public.pem" then some (Node.file 0o755 [16, 1]) else none,
    0o022⟩

/-- A disk holding the private stream of `keyA` and the public stream of
`keyB`. -/
def mixedFS : FS :=
  ⟨sampleEntry,
    fun i =>
      if i = "private.pem" then
        some (Node.file 0o755 (encode sampleLib keyA keyA.publicKey).1)
      else if i = "public.pem" then
        some (Node.file 0o755 (encode sampleLib keyB keyB.publicKey).2.1)
      else none,
    0o022⟩

/-- A disk on which the public-key path is a directory. -/
def publicDirFS : FS :=
  ⟨sampleEntry, fun i => if i = "public.pem" then some Node.dir else none, 0o022⟩

/-- An RSA public key under the label "RSA PUBLIC KEY". -/
def rsaOwnLabelStream : Bytes :=
  sampleEncodeToMemory ⟨"RSA PUBLIC KEY", [1, 77, 65537]⟩

/-- The private stream `encode` produces for `keyA` with `sampleLib`. -/
def keyAPriStream : Bytes := (encode sampleLib keyA keyA.publicKey).1

/-- The public stream `encode` produces for `keyA` with `sampleLib`. -/
def keyAPubStream : Bytes := (encode sampleLib keyA keyA.publicKey).2.1

/-- The public stream `encode` produces for `keyB` with `sampleLib`. -/
def keyBPubStream : Bytes := (encode sampleLib keyB keyB.publicKey).2.1

/-- The PKIX body of `keyA`'s public key under the label of another algorithm. -/
def rsaLabelledStream : Bytes :=
  sampleLib.pemEncodeToMemory ⟨"RSA PUBLIC KEY", [3, 3, 5, 7]⟩

/-- An RSA public key under the label `encode` writes. -/
def rsaKeyStream : Bytes :=
  sampleLib.pemEncodeToMemory ⟨"ECDSA PUBLIC KEY", [1, 77, 65537]⟩

/-! ## Lemmas on the concrete library -/

theorem codeCurve_curveCode (c : Curve) : codeCurve (curveCode c) = some c := by
  cases c <;> rfl

theorem sampleDecode_encode (b : Block) :
    sampleDecode (sampleEncodeToMemory b) = some b := by
  obtain ⟨t, bs⟩ := b
  have hmap : List.map Char.ofNat (List.map Char.toNat t.data) = t.data := by
    rw [List.map_map]
    have hid : (Char.ofNat ∘ Char.toNat) = id := by
      funext c
      simp [Char.ofNat_toNat]
    rw [hid, List.map_id]
  have hlen : (List.map Char.toNat t.data).length = t.data.length := List.length_map _ _
  simp only [sampleEncodeToMemory, sampleDecode]
  rw [if_pos (by simp)]
  rw [← hlen, List.take_left, List.drop_left, hmap]

theorem sampleLib_pemInverts (t : String) : PemInverts sampleLib t :=
  fun bs => sampleDecode_encode ⟨t, bs⟩

theorem sampleLib_ecInverts (k : PrivateKey) : ECInverts sampleLib k := by
  intro bs h
  obtain ⟨⟨c, x, y⟩, d⟩ := k
  have hbs : bs = [curveCode c, x, y, d] := by
    simp only [sampleLib, sampleMarshalEC] at h
    injection h with h
    exact h.symm
  subst hbs
  show sampleParseEC [curveCode c, x, y, d] = .ok ⟨⟨c, x, y⟩, d⟩
  simp [sampleParseEC, codeCurve_curveCode]

theorem sampleLib_pkixInverts (q : PublicKey) : PKIXInverts sampleLib q := by
  intro bs h
  obtain ⟨c, x, y⟩ := q
  simp only [sampleLib, sampleMarshalPKIX] at h
  injection h with h
  subst h
  show sampleParsePKIX [3, curveCode c, x, y] = _
  simp [sampleParsePKIX, codeCurve_curveCode]

/-! ## decode -/

theorem decode_no_private_block (L : Lib) (pri pub : Bytes) (h : L.pemDecode pri = none) :
    decode L pri pub = .panic nilDeref := by
  simp [decode, h]

theorem decode_private_parse_error (L : Lib) (pri pub : Bytes) (pb : Block) (err : Error)
    (hp : L.pemDecode pri = some pb) (hk : L.parseECPrivateKey pb.bytes = .error err) :
    decode L pri pub = .ret (none, none, some err) := by
  simp [decode, hp, hk]

theorem decode_no_public_block (L : Lib) (pri pub : Bytes) (pb : Block) (k : PrivateKey)
    (hp : L.pemDecode pri = some pb) (hk : L.parseECPrivateKey pb.bytes = .ok k)
    (hb : L.pemDecode pub = none) :
    decode L pri pub = .panic nilDeref := by
  simp [decode, hp, hk, hb]

theorem decode_public_parse_error (L : Lib) (pri pub : Bytes) (pb b : Block) (k : PrivateKey)
    (err : Error)
    (hp : L.pemDecode pri = some pb) (hk : L.parseECPrivateKey pb.bytes = .ok k)
    (hb : L.pemDecode pub = some b) (hg : L.parsePKIXPublicKey b.bytes = .error err) :
    decode L pri pub = .ret (none, none, some err) := by
  simp [decode, hp, hk, hb, hg]

theorem decode_ecdsa (L : Lib) (pri pub : Bytes) (pb b : Block) (k : PrivateKey)
    (q : PublicKey)
    (hp : L.pemDecode pri = some pb) (hk : L.parseECPrivateKey pb.bytes = .ok k)
    (hb : L.pemDecode pub = some b)
    (hg : L.parsePKIXPublicKey b.bytes = .ok (AnyPublicKey.ecdsa q)) :
    decode L pri pub = .ret (some k, some q, none) := by
  simp [decode, hp, hk, hb, hg]

theorem decode_other_kind (L : Lib) (pri pub : Bytes) (pb b : Block) (k : PrivateKey)
    (g : AnyPublicKey)
    (hp : L.pemDecode pri = some pb) (hk : L.parseECPrivateKey pb.bytes = .ok k)
    (hb : L.pemDecode pub = some b) (hg : L.parsePKIXPublicKey b.bytes = .ok g)
    (hne : ∀ q, g ≠ AnyPublicKey.ecdsa q) :
    decode L pri pub = .ret (none, none, some "can not assert the public key") := by
  cases g with
  | ecdsa q => exact absurd rfl (hne q)
  | rsa n e => simp [decode, hp, hk, hb, hg]
  | dsa y => simp [decode, hp, hk, hb, hg]
  | ed25519 x => simp [decode, hp, hk, hb, hg]
  | ecdh x => simp [decode, hp, hk, hb, hg]

/-- What `decode` does, by cases on the library's answers. -/
theorem decode_cases (L : Lib) (pri pub : Bytes) :
    (L.pemDecode pri = none ∧ decode L pri pub = .panic nilDeref) ∨
    (∃ pb err, L.pemDecode pri = some pb ∧ L.parseECPrivateKey pb.bytes = .error err ∧
      decode L pri pub = .ret (none, none, some err)) ∨
    (∃ pb k, L.pemDecode pri = some pb ∧ L.parseECPrivateKey pb.bytes = .ok k ∧
      ((L.pemDecode pub = none ∧ decode L pri pub = .panic nilDeref) ∨
       (∃ b err, L.pemDecode pub = some b ∧ L.parsePKIXPublicKey b.bytes = .error err ∧
          decode L pri pub = .ret (none, none, some err)) ∨
       (∃ b q, L.pemDecode pub = some b ∧
          L.parsePKIXPublicKey b.bytes = .ok (AnyPublicKey.ecdsa q) ∧
          decode L pri pub = .ret (some k, some q, none)) ∨
       (∃ b g, L.pemDecode pub = some b ∧ L.parsePKIXPublicKey b.bytes = .ok g ∧
          (∀ q, g ≠ AnyPublicKey.ecdsa q) ∧
          decode L pri pub = .ret (none, none, some "can not assert the public key")))) := by
  cases hp : L.pemDecode pri with
  | none => exact Or.inl ⟨rfl, decode_no_private_block L pri pub hp⟩
  | some pb =>
    cases hk : L.parseECPrivateKey pb.bytes with
    | error err =>
      exact Or.inr (Or.inl ⟨pb, err, rfl, hk, decode_private_parse_error L pri pub pb err hp hk⟩)
    | ok k =>
      refine Or.inr (Or.inr ⟨pb, k, rfl, hk, ?_⟩)
      cases hb : L.pemDecode pub with
      | none => exact Or.inl ⟨rfl, decode_no_public_block L pri pub pb k hp hk hb⟩
      | some b =>
        cases hg : L.parsePKIXPublicKey b.bytes with
        | error err =>
          exact Or.inr (Or.inl
            ⟨b, err, rfl, hg, decode_public_parse_error L pri pub pb b k err hp hk hb hg⟩)
        | ok g =>
          by_cases hq : ∃ q, g = AnyPublicKey.ecdsa q
          · obtain ⟨q, rfl⟩ := hq
            exact Or.inr (Or.inr (Or.inl
              ⟨b, q, rfl, hg, decode_ecdsa L pri pub pb b k q hp hk hb hg⟩))
          · have hne : ∀ q, g ≠ AnyPublicKey.ecdsa q := fun q h => hq ⟨q, h⟩
            exact Or.inr (Or.inr (Or.inr
              ⟨b, g, rfl, hg, hne, decode_other_kind L pri pub pb b k g hp hk hb hg hne⟩))

/-- C2 (the code departs from the claim): when the private stream holds no PEM
block, or the private stream parses and the public stream holds no PEM block,
`decode` reads `Bytes` through the nil block and panics; it returns no error. -/
theorem decode_panics_on_missing_block (L : Lib) (pri pub : Bytes)
    (h : L.pemDecode pri = none ∨
      ∃ pb k, L.pemDecode pri = some pb ∧ L.parseECPrivateKey pb.bytes = .ok k ∧
        L.pemDecode pub = none) :
    decode L pri pub = .panic nilDeref := by
  rcases h with h | ⟨pb, k, hp, hk, hb⟩
  · exact decode_no_private_block L pri pub h
  · exact decode_no_public_block L pri pub pb k hp hk hb

/-- The empty private stream holds no block, and `decode` panics on it. -/
theorem decode_panics_on_missing_block_witness :
    (sampleLib.pemDecode [] = none ∨
      ∃ pb k, sampleLib.pemDecode [] = some pb ∧
        sampleLib.parseECPrivateKey pb.bytes = .ok k ∧
        sampleLib.pemDecode keyAPubStream = none) ∧
    decode sampleLib [] keyAPubStream = .panic nilDeref :=
  ⟨Or.inl rfl, decode_panics_on_missing_block sampleLib [] keyAPubStream (Or.inl rfl)⟩

/-- C5: for a key pair produced by `generate`, when `encode` returns the two
streams without error, `decode` of the streams returns that key pair without
error, provided `pem.Decode` inverts `pem.EncodeToMemory` on the two labels
`encode` writes and the two key readers invert their marshallers on this key
pair. -/
theorem decode_encode_roundtrip (L : Lib) (gen : Except Error PrivateKey)
    (pri : PrivateKey) (pub : PublicKey) (encPri encPub : Bytes)
    (hpemPri : PemInverts L "ECDSA PRIVATE KEY") (hpemPub : PemInverts L "ECDSA PUBLIC KEY")
    (hec : ECInverts L pri) (hpkix : PKIXInverts L pub)
    (_hgen : generate gen = (some pri, some pub, none))
    (henc : encode L pri pub = (encPri, encPub, none)) :
    decode L encPri encPub = .ret (some pri, some pub, none) := by
  unfold encode at henc
  cases hm : L.marshalECPrivateKey pri with
  | error err => simp [hm] at henc
  | ok x509Pri =>
    cases hq : L.marshalPKIXPublicKey (AnyPublicKey.ecdsa pub) with
    | error err => simp [hm, hq] at henc
    | ok x509Pub =>
      simp only [hm, hq, Prod.mk.injEq, and_true] at henc
      obtain ⟨h1, h2⟩ := henc
      subst h1
      subst h2
      exact decode_ecdsa L _ _ ⟨"ECDSA PRIVATE KEY", x509Pri⟩ ⟨"ECDSA PUBLIC KEY", x509Pub⟩
        pri pub (hpemPri x509Pri) (hec x509Pri hm) (hpemPub x509Pub) (hpkix x509Pub hq)

/-- The round trip of `keyA` through `sampleLib`. -/
theorem decode_encode_roundtrip_witness :
    PemInverts sampleLib "ECDSA PRIVATE KEY" ∧ PemInverts sampleLib "ECDSA PUBLIC KEY" ∧
    ECInverts sampleLib keyA ∧ PKIXInverts sampleLib keyA.publicKey ∧
    generate (.ok keyA) = (some keyA, some keyA.publicKey, none) ∧
    encode sampleLib keyA keyA.publicKey = (keyAPriStream, keyAPubStream, none) ∧
    decode sampleLib keyAPriStream keyAPubStream = .ret (some keyA, some keyA.publicKey, none) :=
  ⟨sampleLib_pemInverts _, sampleLib_pemInverts _, sampleLib_ecInverts _,
    sampleLib_pkixInverts _, rfl, rfl,
    decode_encode_roundtrip sampleLib (.ok keyA) keyA keyA.publicKey keyAPriStream
      keyAPubStream (sampleLib_pemInverts _) (sampleLib_pemInverts _)
      (sampleLib_ecInverts _) (sampleLib_pkixInverts _) rfl rfl⟩

/-- C6 (as stated, refuted): a public stream armored with the label
"RSA PUBLIC KEY" whose body is the PKIX form of an ECDSA key is decoded
without error, and that key is returned. -/
theorem decode_accepts_foreign_label :
    sampleLib.pemDecode rsaLabelledStream = some ⟨"RSA PUBLIC KEY", [3, 3, 5, 7]⟩ ∧
    "RSA PUBLIC KEY" ≠ "ECDSA PUBLIC KEY" ∧
    decode sampleLib keyAPriStream rsaLabelledStream =
      .ret (some keyA, some keyA.publicKey, none) := by
  decide

/-- C6 (amended): `decode` rejects a foreign public key by what the block's body
parses to, not by the block's label. When the body of the public stream's block
parses to a key that is not an ECDSA key, whatever `decode` returns holds no key
and a non-nil error; and two public streams whose blocks have the same body,
under any labels, give the same outcome. -/
theorem decode_rejects_by_body (L : Lib) (pri pub : Bytes) (b : Block)
    (hb : L.pemDecode pub = some b) :
    (∀ g, L.parsePKIXPublicKey b.bytes = .ok g → (∀ q, g ≠ AnyPublicKey.ecdsa q) →
      ∀ r, decode L pri pub = .ret r → r.1 = none ∧ r.2.1 = none ∧ r.2.2 ≠ none) ∧
    (∀ pub2 b2, L.pemDecode pub2 = some b2 → b2.bytes = b.bytes →
      decode L pri pub2 = decode L pri pub) := by
  constructor
  · intro g hg hne r hr
    rcases decode_cases L pri pub with ⟨_, h⟩ | ⟨pb, err, _, _, h⟩ | ⟨pb, k, _, _, h⟩
    · rw [h] at hr
      cases hr
    · rw [h] at hr
      cases hr
      simp
    · rcases h with ⟨hn, _⟩ | ⟨b1, err, hb1, hg1, h⟩ | ⟨b1, q, hb1, hg1, _⟩ |
        ⟨b1, g1, _, _, _, h⟩
      · rw [hb] at hn
        cases hn
      · rw [h] at hr
        cases hr
        simp
      · rw [hb] at hb1
        cases hb1
        rw [hg] at hg1
        cases hg1
        exact absurd rfl (hne q)
      · rw [h] at hr
        cases hr
        simp
  · intro pub2 b2 hb2 hbytes
    simp only [decode, hb, hb2, hbytes]

/-- An RSA key in the public stream is rejected under the label `encode` writes
and under its own label alike. -/
theorem decode_rejects_by_body_witness :
    sampleLib.pemDecode rsaKeyStream = some ⟨"ECDSA PUBLIC KEY", [1, 77, 65537]⟩ ∧
    (∀ r, decode sampleLib keyAPriStream rsaKeyStream = .ret r →
      r.1 = none ∧ r.2.1 = none ∧ r.2.2 ≠ none) ∧
    decode sampleLib keyAPriStream rsaOwnLabelStream =
      decode sampleLib keyAPriStream rsaKeyStream :=
  ⟨by decide,
    (decode_rejects_by_body sampleLib keyAPriStream rsaKeyStream
      ⟨"ECDSA PUBLIC KEY", [1, 77, 65537]⟩ (by decide)).1 (AnyPublicKey.rsa 77 65537) rfl
      (fun _ h => by cases h),
    (decode_rejects_by_body sampleLib keyAPriStream rsaKeyStream
      ⟨"ECDSA PUBLIC KEY", [1, 77, 65537]⟩ (by decide)).2 rsaOwnLabelStream
      ⟨"RSA PUBLIC KEY", [1, 77, 65537]⟩ (by decide) rfl⟩

/-- C7: when the private stream parses and the PKIX parse of the public stream
succeeds with a key that is not an ECDSA key, `decode` returns nil, nil and the
error "can not assert the public key"; and when `decode` returns a nil error,
the public key it returns is the ECDSA key the PKIX parse yielded. -/
theorem decode_wrong_key_kind (L : Lib) (pri pub : Bytes) :
    (∀ pb k b g, L.pemDecode pri = some pb → L.parseECPrivateKey pb.bytes = .ok k →
      L.pemDecode pub = some b → L.parsePKIXPublicKey b.bytes = .ok g →
      (∀ q, g ≠ AnyPublicKey.ecdsa q) →
      decode L pri pub = .ret (none, none, some "can not assert the public key")) ∧
    (∀ decPri decPub, decode L pri pub = .ret (decPri, decPub, none) →
      ∃ b q, L.pemDecode pub = some b ∧
        L.parsePKIXPublicKey b.bytes = .ok (AnyPublicKey.ecdsa q) ∧ decPub = some q) := by
  constructor
  · intro pb k b g hp hk hb hg hne
    exact decode_other_kind L pri pub pb b k g hp hk hb hg hne
  · intro decPri decPub hr
    rcases decode_cases L pri pub with ⟨_, h⟩ | ⟨pb, err, _, _, h⟩ | ⟨pb, k, _, _, h⟩
    · rw [h] at hr
      cases hr
    · rw [h] at hr
      cases hr
    · rcases h with ⟨_, h⟩ | ⟨b1, err, _, _, h⟩ | ⟨b1, q, hb1, hg1, h⟩ | ⟨b1, g1, _, _, _, h⟩
      · rw [h] at hr
        cases hr
      · rw [h] at hr
        cases hr
      · rw [h] at hr
        cases hr
        exact ⟨b1, q, hb1, hg1, rfl⟩
      · rw [h] at hr
        cases hr

/-- An RSA key in the public stream: `decode` returns the assertion error. -/
theorem decode_wrong_key_kind_witness :
    sampleLib.pemDecode keyAPriStream = some ⟨"ECDSA PRIVATE KEY", [3, 5, 7, 11]⟩ ∧
    sampleLib.parseECPrivateKey [3, 5, 7, 11] = .ok keyA ∧
    sampleLib.pemDecode rsaKeyStream = some ⟨"ECDSA PUBLIC KEY", [1, 77, 65537]⟩ ∧
    sampleLib.parsePKIXPublicKey [1, 77, 65537] = .ok (AnyPublicKey.rsa 77 65537) ∧
    (∀ q, AnyPublicKey.rsa 77 65537 ≠ AnyPublicKey.ecdsa q) ∧
    decode sampleLib keyAPriStream rsaKeyStream =
      .ret (none, none, some "can not assert the public key") :=
  ⟨by decide, rfl, by decide, rfl, (fun _ h => by cases h),
    (decode_wrong_key_kind sampleLib keyAPriStream rsaKeyStream).1
      ⟨"ECDSA PRIVATE KEY", [3, 5, 7, 11]⟩ keyA ⟨"ECDSA PUBLIC KEY", [1, 77, 65537]⟩
      (AnyPublicKey.rsa 77 65537) (by decide) rfl (by decide) rfl
      (fun _ h => by cases h)⟩

/-! ## The files: store, get, cleanup -/

theorem named_put_self (fs : FS) (n : String) (nd : Node) :
    (fs.put n nd).named n = some nd := by
  simp [FS.put, FS.named]

theorem named_drop_self (fs : FS) (n : String) : (fs.drop n).named n = none := by
  simp [FS.drop, FS.named]

theorem writeFile_ok (fs fs1 : FS) (n : String) (d : Bytes) (perm : Nat)
    (h : writeFile fs n d perm = (none, fs1)) :
    (fs.named n = none ∧ fs1 = fs.put n (Node.file (createMode perm fs.umask) d)) ∨
    (∃ m d0, fs.named n = some (Node.file m d0) ∧ ownerWrite m = true ∧
      fs1 = fs.put n (Node.file m d)) ∨
    (fs.named n = some Node.device ∧ fs1 = fs) := by
  unfold writeFile at h
  cases hn : fs.named n with
  | none =>
    left
    rw [hn] at h
    simp only [Prod.mk.injEq, true_and] at h
    exact ⟨rfl, h.symm⟩
  | some nd =>
    rw [hn] at h
    cases nd with
    | file m d0 =>
      right
      left
      simp only [] at h
      by_cases hw : ownerWrite m = true
      · rw [if_pos hw] at h
        simp only [Prod.mk.injEq, true_and] at h
        exact ⟨m, d0, rfl, hw, h.symm⟩
      · rw [if_neg hw] at h
        simp at h
    | device =>
      right
      right
      simp only [Prod.mk.injEq, true_and] at h
      exact ⟨rfl, h.symm⟩
    | dir => simp at h

theorem read_after_write (fs fs1 : FS) (n n2 : String) (d : Bytes)
    (h : writeFile fs n d 0o755 = (none, fs1)) (he : fs.entry n2 = fs.entry n) :
    (readsBack fs n d = true → readFile fs1 n2 = (d, none)) ∧
    (readFile fs1 n2 = (d, none) → readsBack fs n d = true) := by
  rcases writeFile_ok fs fs1 n d _ h with ⟨hn, e⟩ | ⟨m, d0, hn, _, e⟩ | ⟨hn, e⟩
  · have hn2 : fs.node (fs.entry n) = none := hn
    rw [e]
    simp [readFile, readsBack, FS.named, FS.put, he, hn2]
  · have hn2 : fs.node (fs.entry n) = some (Node.file m d0) := hn
    rw [e]
    simp [readFile, readsBack, FS.named, FS.put, he, hn2]
  · have hn2 : fs.node (fs.entry n) = some Node.device := hn
    rw [e]
    simp only [readFile, readsBack, FS.named, he, hn2]
    constructor
    · intro hd
      rw [List.isEmpty_iff] at hd
      rw [hd]
    · intro hd
      cases hd
      rfl

theorem read_other_after_write (fs fs1 : FS) (n n2 : String) (d : Bytes) (perm : Nat)
    (h : writeFile fs n d perm = (none, fs1)) (he : fs.entry n2 ≠ fs.entry n) :
    readFile fs1 n2 = readFile fs n2 := by
  rcases writeFile_ok fs fs1 n d _ h with ⟨_, e⟩ | ⟨m, d0, _, _, e⟩ | ⟨_, e⟩
  · rw [e]
    simp [readFile, FS.named, FS.put, he]
  · rw [e]
    simp [readFile, FS.named, FS.put, he]
  · rw [e]

theorem readsBack_after_write (fs fs1 : FS) (n n2 : String) (d x : Bytes)
    (h : writeFile fs n d 0o755 = (none, fs1)) :
    readsBack fs1 n2 x = readsBack fs n2 x := by
  rcases writeFile_ok fs fs1 n d _ h with ⟨hn, e⟩ | ⟨m, d0, hn, _, e⟩ | ⟨_, e⟩
  · rw [e]
    by_cases he : fs.entry n2 = fs.entry n
    · have hn2 : fs.node (fs.entry n) = none := hn
      simp [readsBack, FS.named, FS.put, he, hn2]
    · simp [readsBack, FS.named, FS.put, he]
  · rw [e]
    by_cases he : fs.entry n2 = fs.entry n
    · have hn2 : fs.node (fs.entry n) = some (Node.file m d0) := hn
      simp [readsBack, FS.named, FS.put, he, hn2]
    · simp [readsBack, FS.named, FS.put, he]
  · rw [e]

theorem entry_after_write (fs fs1 : FS) (n : String) (d : Bytes) (perm : Nat)
    (h : writeFile fs n d perm = (none, fs1)) : fs1.entry = fs.entry := by
  rcases writeFile_ok fs fs1 n d _ h with ⟨_, e⟩ | ⟨m, d0, _, _, e⟩ | ⟨_, e⟩ <;>
    rw [e] <;> rfl

theorem store_ok (cfg : Config) (a b : Bytes) (fs : FS)
    (h : (store cfg a b fs).1 = none) :
    ∃ fs1 fs2, writeFile fs cfg.privateFName a 0o755 = (none, fs1) ∧
      writeFile fs1 cfg.publicFName b 0o755 = (none, fs2) ∧ store cfg a b fs = (none, fs2) := by
  rcases h1 : writeFile fs cfg.privateFName a 0o755 with ⟨_ | e1, fs1⟩
  · rcases h2 : writeFile fs1 cfg.publicFName b 0o755 with ⟨_ | e2, fs2⟩
    · refine ⟨fs1, fs2, rfl, h2, ?_⟩
      simp [store, h1, h2]
    · simp [store, h1, h2] at h
  · simp [store, h1] at h

theorem get_eq_iff (cfg : Config) (fs : FS) (a b : Bytes) :
    get cfg fs = (a, b, none) ↔
      readFile fs cfg.privateFName = (a, none) ∧ readFile fs cfg.publicFName = (b, none) := by
  unfold get
  rcases h1 : readFile fs cfg.privateFName with ⟨x, _ | e1⟩
  · rcases h2 : readFile fs cfg.publicFName with ⟨y, _ | e2⟩
    · simp
    · simp
  · simp

/-- C4 (as stated, refuted): `store` succeeds and `get` right after does not
return the two streams written: with both flags naming `key.pem`, and with the
flags `key.pem` and `./key.pem`, it returns `[2]` twice; with the private key
sent to `/dev/null` it returns an empty private stream; with `private.pem`
there in mode `0200` it returns the error of the read. -/
theorem store_get_not_inverse :
    ((store sameNameConfig [1] [2] emptyFS).1 = none ∧
      get sameNameConfig (store sameNameConfig [1] [2] emptyFS).2 = ([2], [2], none)) ∧
    ((store aliasConfig [1] [2] emptyFS).1 = none ∧
      get aliasConfig (store aliasConfig [1] [2] emptyFS).2 = ([2], [2], none)) ∧
    ((store devNullConfig [1] [2] devNullFS).1 = none ∧
      get devNullConfig (store devNullConfig [1] [2] devNullFS).2 = ([], [2], none)) ∧
    ((store defaultConfig [1] [2] writeOnlyFS).1 = none ∧
      get defaultConfig (store defaultConfig [1] [2] writeOnlyFS).2 =
        ([], [], some "open private.pem: permission denied")) := by
  decide

/-- C4 (amended): when `store encPri encPub` succeeds, `get` called right after
returns exactly `encPri`, `encPub` and a nil error if and only if each path
reads back what was written to it (`readsBack`: it leads to a regular file the
process may read, or to a device and the stream is empty) and the two paths lead
to different files or the two streams are equal. When the two paths lead to one
file that reads back, `get` returns `encPub` twice. -/
theorem store_get_inverse (cfg : Config) (encPri encPub : Bytes) (fs : FS)
    (h : (store cfg encPri encPub fs).1 = none) :
    (get cfg (store cfg encPri encPub fs).2 = (encPri, encPub, none) ↔
      readsBack fs cfg.privateFName encPri = true ∧
      readsBack fs cfg.publicFName encPub = true ∧
      (fs.entry cfg.privateFName ≠ fs.entry cfg.publicFName ∨ encPri = encPub)) ∧
    (fs.entry cfg.privateFName = fs.entry cfg.publicFName →
      readsBack fs cfg.publicFName encPub = true →
      get cfg (store cfg encPri encPub fs).2 = (encPub, encPub, none)) := by
  obtain ⟨fs1, fs2, w1, w2, hs⟩ := store_ok cfg encPri encPub fs h
  rw [hs]
  simp only []
  have e1 := entry_after_write fs fs1 _ _ _ w1
  have rb : readsBack fs1 cfg.publicFName encPub = true ↔
      readsBack fs cfg.publicFName encPub = true := by
    rw [readsBack_after_write fs fs1 _ _ _ _ w1]
  have rpub := read_after_write fs1 fs2 cfg.publicFName cfg.publicFName encPub w2 rfl
  by_cases hpp : fs.entry cfg.privateFName = fs.entry cfg.publicFName
  · have hpp1 : fs1.entry cfg.privateFName = fs1.entry cfg.publicFName := by
      rw [e1]
      exact hpp
    have rpri := read_after_write fs1 fs2 cfg.publicFName cfg.privateFName encPub w2 hpp1
    have ra : readsBack fs cfg.privateFName encPub = true ↔
        readsBack fs cfg.publicFName encPub = true := by
      simp [readsBack, FS.named, hpp]
    constructor
    · rw [get_eq_iff]
      constructor
      · rintro ⟨g1, g2⟩
        have hb := rb.1 (rpub.2 g2)
        have g1b := rpri.1 (rb.2 hb)
        rw [g1] at g1b
        have hab : encPri = encPub := by
          cases g1b
          rfl
        subst hab
        exact ⟨ra.2 hb, hb, Or.inr rfl⟩
      · rintro ⟨_, hb, hor⟩
        rcases hor with hne | hab
        · exact absurd hpp hne
        · subst hab
          exact ⟨rpri.1 (rb.2 hb), rpub.1 (rb.2 hb)⟩
    · intro _ hb
      rw [get_eq_iff]
      exact ⟨rpri.1 (rb.2 hb), rpub.1 (rb.2 hb)⟩
  · have hpp1 : fs1.entry cfg.privateFName ≠ fs1.entry cfg.publicFName := by
      rw [e1]
      exact hpp
    have fr := read_other_after_write fs1 fs2 cfg.publicFName cfg.privateFName encPub _ w2 hpp1
    have rpri := read_after_write fs fs1 cfg.privateFName cfg.privateFName encPri w1 rfl
    constructor
    · rw [get_eq_iff, fr]
      constructor
      · rintro ⟨g1, g2⟩
        exact ⟨rpri.2 g1, rb.1 (rpub.2 g2), Or.inl hpp⟩
      · rintro ⟨ha, hb, _⟩
        exact ⟨rpri.1 ha, rpub.1 (rb.2 hb)⟩
    · intro heq
      exact absurd heq hpp

/-- With the default paths, on an empty disk, `get` returns what `store` wrote;
with both flags naming `key.pem` it returns the public stream twice. -/
theorem store_get_inverse_witness :
    (store defaultConfig [1, 2] [3] emptyFS).1 = none ∧
    get defaultConfig (store defaultConfig [1, 2] [3] emptyFS).2 = ([1, 2], [3], none) ∧
    (store sameNameConfig [1, 2] [3] emptyFS).1 = none ∧
    get sameNameConfig (store sameNameConfig [1, 2] [3] emptyFS).2 = ([3], [3], none) :=
  ⟨by decide,
    (store_get_inverse defaultConfig [1, 2] [3] emptyFS (by decide)).1.2
      ⟨by decide, by decide, Or.inl (by decide)⟩,
    by decide,
    (store_get_inverse sameNameConfig [1, 2] [3] emptyFS (by decide)).2 rfl (by decide)⟩

theorem remove_cases (fs : FS) (n : String) :
    (fs.named n = none ∧
      remove fs n = (some ("remove " ++ n ++ ": no such file or directory"), fs)) ∨
    (fs.named n = some Node.dir ∧
      remove fs n = (some ("remove " ++ n ++ ": directory not empty"), fs)) ∨
    (∃ nd, fs.named n = some nd ∧ nd ≠ Node.dir ∧ remove fs n = (none, fs.drop n)) := by
  cases h : fs.named n with
  | none =>
    left
    simp [remove, h]
  | some nd =>
    cases nd with
    | dir =>
      right
      left
      simp [remove, h]
    | device =>
      right
      right
      exact ⟨Node.device, rfl, by simp, by simp [remove, h]⟩
    | file m d =>
      right
      right
      exact ⟨Node.file m d, rfl, by simp, by simp [remove, h]⟩

theorem cleanup_cases (cfg : Config) (fs : FS) :
    (∃ err, remove fs cfg.privateFName = (some err, fs) ∧ cleanup cfg fs = (some err, fs)) ∨
    (∃ err, remove fs cfg.privateFName = (none, fs.drop cfg.privateFName) ∧
      remove (fs.drop cfg.privateFName) cfg.publicFName =
        (some err, fs.drop cfg.privateFName) ∧
      cleanup cfg fs = (some err, fs.drop cfg.privateFName)) ∨
    (remove fs cfg.privateFName = (none, fs.drop cfg.privateFName) ∧
      remove (fs.drop cfg.privateFName) cfg.publicFName =
        (none, (fs.drop cfg.privateFName).drop cfg.publicFName) ∧
      cleanup cfg fs = (none, (fs.drop cfg.privateFName).drop cfg.publicFName)) := by
  rcases remove_cases fs cfg.privateFName with ⟨_, e⟩ | ⟨_, e⟩ | ⟨nd, _, _, e⟩
  · left
    exact ⟨_, e, by rw [cleanup, e]⟩
  · left
    exact ⟨_, e, by rw [cleanup, e]⟩
  · right
    rcases remove_cases (fs.drop cfg.privateFName) cfg.publicFName with
      ⟨_, e2⟩ | ⟨_, e2⟩ | ⟨nd2, _, _, e2⟩
    · left
      refine ⟨_, e, e2, ?_⟩
      rw [cleanup, e]
      simp only []
      rw [e2]
    · left
      refine ⟨_, e, e2, ?_⟩
      rw [cleanup, e]
      simp only []
      rw [e2]
    · right
      refine ⟨e, e2, ?_⟩
      rw [cleanup, e]
      simp only []
      rw [e2]

/-- C9: `cleanup` returns a nil error only if both removals succeeded, and then
neither path is on disk; when the removal of the private-key path fails,
`cleanup` returns that error; when it succeeds and the removal of the public-key
path fails, `cleanup` returns that error. -/
theorem cleanup_reports_removal_failure (cfg : Config) (fs : FS) :
    ((cleanup cfg fs).1 = none →
      (remove fs cfg.privateFName).1 = none ∧
      (remove (remove fs cfg.privateFName).2 cfg.publicFName).1 = none ∧
      (cleanup cfg fs).2.named cfg.privateFName = none ∧
      (cleanup cfg fs).2.named cfg.publicFName = none) ∧
    (∀ err, (remove fs cfg.privateFName).1 = some err → (cleanup cfg fs).1 = some err) ∧
    (∀ err, (remove fs cfg.privateFName).1 = none →
      (remove (remove fs cfg.privateFName).2 cfg.publicFName).1 = some err →
      (cleanup cfg fs).1 = some err) := by
  rcases cleanup_cases cfg fs with ⟨err, e, c⟩ | ⟨err, e, e2, c⟩ | ⟨e, e2, c⟩
  · refine ⟨?_, ?_, ?_⟩
    · intro h
      rw [c] at h
      cases h
    · intro err2 h
      rw [e] at h
      rw [c]
      exact h
    · intro err2 h
      rw [e] at h
      cases h
  · refine ⟨?_, ?_, ?_⟩
    · intro h
      rw [c] at h
      cases h
    · intro err2 h
      rw [e] at h
      cases h
    · intro err2 _ h
      rw [e] at h
      simp only [] at h
      rw [e2] at h
      rw [c]
      exact h
  · refine ⟨?_, ?_, ?_⟩
    · intro _
      simp only [e, e2, c]
      simp [FS.drop, FS.named]
    · intro err2 h
      rw [e] at h
      cases h
    · intro err2 _ h
      rw [e] at h
      simp only [] at h
      rw [e2] at h
      cases h

/-- With the default paths and both files on disk, `cleanup` removes both. -/
theorem cleanup_reports_removal_failure_witness :
    (cleanup defaultConfig mixedFS).1 = none ∧
    (cleanup defaultConfig mixedFS).2.named "private.pem" = none ∧
    (cleanup defaultConfig mixedFS).2.named "public.pem" = none ∧
    (cleanup defaultConfig publicOnlyFS).1 = (remove publicOnlyFS "private.pem").1 :=
  ⟨by decide,
    ((cleanup_reports_removal_failure defaultConfig mixedFS).1 (by decide)).2.2.1,
    ((cleanup_reports_removal_failure defaultConfig mixedFS).1 (by decide)).2.2.2,
    (cleanup_reports_removal_failure defaultConfig publicOnlyFS).2.1 _ rfl⟩

/-! ## check -/

theorem get_cases (cfg : Config) (fs : FS) :
    (∃ err, (readFile fs cfg.privateFName).2 = some err ∧ get cfg fs = ([], [], some err)) ∨
    (∃ a err, readFile fs cfg.privateFName = (a, none) ∧
      (readFile fs cfg.publicFName).2 = some err ∧ get cfg fs = ([], [], some err)) ∨
    (∃ a b, readFile fs cfg.privateFName = (a, none) ∧
      readFile fs cfg.publicFName = (b, none) ∧ get cfg fs = (a, b, none)) := by
  rcases h1 : readFile fs cfg.privateFName with ⟨a, _ | err⟩
  · right
    rcases h2 : readFile fs cfg.publicFName with ⟨b, _ | err⟩
    · right
      exact ⟨a, b, rfl, rfl, by simp [get, h1, h2]⟩
    · left
      exact ⟨a, err, rfl, rfl, by simp [get, h1, h2]⟩
  · left
    exact ⟨err, rfl, by simp [get, h1]⟩

theorem check_get_error (L : Lib) (cfg : Config) (pri : PrivateKey) (pub : PublicKey)
    (fs : FS) (err : Error) (h : (get cfg fs).2.2 = some err) :
    check L cfg pri pub fs = .ret (some err) := by
  rcases hg : get cfg fs with ⟨a, b, _ | e⟩
  · rw [hg] at h
    cases h
  · rw [hg] at h
    simp only [Option.some.injEq] at h
    subst h
    simp [check, hg]

theorem check_decode_error (L : Lib) (cfg : Config) (pri : PrivateKey) (pub : PublicKey)
    (fs : FS) (encPri encPub : Bytes) (a : Option PrivateKey) (b : Option PublicKey)
    (err : Error) (hg : get cfg fs = (encPri, encPub, none))
    (hd : decode L encPri encPub = .ret (a, b, some err)) :
    check L cfg pri pub fs = .ret (some err) := by
  simp [check, hg, hd]

theorem check_decode_panic (L : Lib) (cfg : Config) (pri : PrivateKey) (pub : PublicKey)
    (fs : FS) (encPri encPub : Bytes) (msg : String)
    (hg : get cfg fs = (encPri, encPub, none))
    (hd : decode L encPri encPub = .panic msg) :
    check L cfg pri pub fs = .panic msg := by
  simp [check, hg, hd]

theorem check_decoded (L : Lib) (cfg : Config) (pri : PrivateKey) (pub : PublicKey)
    (fs : FS) (encPri encPub : Bytes) (decPri : Option PrivateKey)
    (decPub : Option PublicKey) (hg : get cfg fs = (encPri, encPub, none))
    (hd : decode L encPri encPub = .ret (decPri, decPub, none)) :
    check L cfg pri pub fs =
      if some pri ≠ decPri then .ret (some "private keys dont match") else .ret none := by
  simp [check, hg, hd]

/-- C1 (the code departs from the claim): when the files read back and decode
to the original private key and to a public key that differs from the original
one, `check` returns a nil error. -/
theorem check_accepts_public_mismatch (L : Lib) (cfg : Config) (pri : PrivateKey)
    (pub decPub : PublicKey) (fs : FS) (encPri encPub : Bytes)
    (hg : get cfg fs = (encPri, encPub, none))
    (hd : decode L encPri encPub = .ret (some pri, some decPub, none))
    (_hne : decPub ≠ pub) :
    check L cfg pri pub fs = .ret none := by
  rw [check_decoded L cfg pri pub fs encPri encPub _ _ hg hd]
  simp

/-- The public-key file holds the key of `keyB`; `check` against `keyA` and its
public key returns a nil error. -/
theorem check_accepts_public_mismatch_witness :
    get defaultConfig mixedFS = (keyAPriStream, keyBPubStream, none) ∧
    decode sampleLib keyAPriStream keyBPubStream =
      .ret (some keyA, some keyB.publicKey, none) ∧
    keyB.publicKey ≠ keyA.publicKey ∧
    check sampleLib defaultConfig keyA keyA.publicKey mixedFS = .ret none :=
  ⟨by decide, by decide, by decide,
    check_accepts_public_mismatch sampleLib defaultConfig keyA keyA.publicKey
      keyB.publicKey mixedFS keyAPriStream keyBPubStream (by decide) (by decide)
      (by decide)⟩

/-- C10: when the files read back and decode without error and the decoded
private key differs from the original one, `check` returns the error "private
keys dont match"; when reading a file fails, or decoding returns an error,
`check` returns that error whatever the original keys are. -/
theorem check_private_mismatch (L : Lib) (cfg : Config) (fs : FS) :
    (∀ pri pub encPri encPub decPri decPub, get cfg fs = (encPri, encPub, none) →
      decode L encPri encPub = .ret (decPri, decPub, none) → decPri ≠ some pri →
      check L cfg pri pub fs = .ret (some "private keys dont match")) ∧
    (∀ err, (get cfg fs).2.2 = some err →
      ∀ pri pub, check L cfg pri pub fs = .ret (some err)) ∧
    (∀ encPri encPub a b err, get cfg fs = (encPri, encPub, none) →
      decode L encPri encPub = .ret (a, b, some err) →
      ∀ pri pub, check L cfg pri pub fs = .ret (some err)) := by
  refine ⟨?_, ?_, ?_⟩
  · intro pri pub encPri encPub decPri decPub hg hd hne
    rw [check_decoded L cfg pri pub fs encPri encPub _ _ hg hd]
    rw [if_pos (fun h => hne h.symm)]
  · intro err h pri pub
    exact check_get_error L cfg pri pub fs err h
  · intro encPri encPub a b err hg hd pri pub
    exact check_decode_error L cfg pri pub fs encPri encPub a b err hg hd

/-- The files hold `keyA`; `check` against `keyB` reports the private keys; on a
disk without the private-key file `check` returns the read error. -/
theorem check_private_mismatch_witness :
    check sampleLib defaultConfig keyB keyB.publicKey mixedFS =
      .ret (some "private keys dont match") ∧
    check sampleLib defaultConfig keyA keyA.publicKey publicOnlyFS =
      .ret (some "open private.pem: no such file or directory") :=
  ⟨(check_private_mismatch sampleLib defaultConfig mixedFS).1 keyB keyB.publicKey
      keyAPriStream keyBPubStream (some keyA) (some keyB.publicKey) (by decide) (by decide)
      (by decide),
    (check_private_mismatch sampleLib defaultConfig publicOnlyFS).2.1 _ (by decide)
      keyA keyA.publicKey⟩

/-- C3 (the code departs from the claim): when the private-key path is not on
disk, `check` returns an error and `cleanup` returns the error of the first
removal without touching the disk, so whatever is at the public-key path stays
there. -/
theorem cleanup_stops_at_missing_private (L : Lib) (cfg : Config) (pri : PrivateKey)
    (pub : PublicKey) (fs : FS) (h : fs.named cfg.privateFName = none) :
    (∃ err, check L cfg pri pub fs = .ret (some err)) ∧
    cleanup cfg fs =
      (some ("remove " ++ cfg.privateFName ++ ": no such file or directory"), fs) := by
  constructor
  · refine ⟨"open " ++ cfg.privateFName ++ ": no such file or directory", ?_⟩
    apply check_get_error
    simp [get, readFile, h]
  · simp [cleanup, remove, h]

/-- The private-key file is gone and the public-key file is there: after
`cleanup` the public-key file is still there. -/
theorem cleanup_stops_at_missing_private_witness :
    publicOnlyFS.named defaultConfig.privateFName = none ∧
    (∃ err, check sampleLib defaultConfig keyA keyA.publicKey publicOnlyFS =
      .ret (some err)) ∧
    (cleanup defaultConfig publicOnlyFS).1 =
      some "remove private.pem: no such file or directory" ∧
    (cleanup defaultConfig publicOnlyFS).2.named "public.pem" =
      some (Node.file 0o755 [16, 1]) :=
  ⟨by decide,
    (cleanup_stops_at_missing_private sampleLib defaultConfig keyA keyA.publicKey
      publicOnlyFS (by decide)).1,
    by decide, by decide⟩

/-! ## main -/

theorem deferred_none (cfg : Config) (r : Run) : deferred cfg none r = r := rfl

theorem deferred_some_ok (cfg : Config) (err : Error) (r : Run)
    (h : (cleanup cfg r.fs).1 = none) :
    deferred cfg (some err) r =
      ⟨r.calls ++ [Call.cleanup], r.log ++ [removingLine cfg], (cleanup cfg r.fs).2, r.exit⟩ := by
  rcases hc : cleanup cfg r.fs with ⟨_ | cerr, fs1⟩
  · simp [deferred, callCleanup, hc]
  · rw [hc] at h
    cases h

theorem deferred_some_err (cfg : Config) (err cerr : Error) (r : Run)
    (h : (cleanup cfg r.fs).1 = some cerr) :
    deferred cfg (some err) r =
      ⟨r.calls ++ [Call.cleanup], r.log ++ [removingLine cfg] ++ [cerr], (cleanup cfg r.fs).2,
        Exit.fatal⟩ := by
  rcases hc : cleanup cfg r.fs with ⟨_ | cerr2, fs1⟩
  · rw [hc] at h
    cases h
  · rw [hc] at h
    simp only [Option.some.injEq] at h
    subst h
    simp [deferred, callCleanup, logFatal, hc]

theorem deferred_some_calls (cfg : Config) (err : Error) (r : Run) :
    (deferred cfg (some err) r).calls = r.calls ++ [Call.cleanup] := by
  rcases hc : (cleanup cfg r.fs).1 with _ | cerr
  · rw [deferred_some_ok cfg err r hc]
  · rw [deferred_some_err cfg err cerr r hc]

theorem deferred_some_fs (cfg : Config) (err : Error) (r : Run) :
    (deferred cfg (some err) r).fs = (cleanup cfg r.fs).2 := by
  rcases hc : (cleanup cfg r.fs).1 with _ | cerr
  · rw [deferred_some_ok cfg err r hc]
  · rw [deferred_some_err cfg err cerr r hc]

theorem generate_ok_unique (pri p2 : PrivateKey) (q2 : PublicKey)
    (h : generate (.ok pri) = (some p2, some q2, none)) : p2 = pri ∧ q2 = pri.publicKey := by
  simp only [generate, Prod.mk.injEq, Option.some.injEq, and_true] at h
  exact ⟨h.1.symm, h.2.symm⟩

theorem main_generate_error (L : Lib) (cfg : Config) (err : Error) (fs : FS) :
    main L cfg (.error err) fs = ⟨[Call.generate], [err], fs, Exit.fatal⟩ := rfl

theorem main_encode_error (L : Lib) (cfg : Config) (pri : PrivateKey) (fs : FS)
    (a b : Bytes) (err : Error) (he : encode L pri pri.publicKey = (a, b, some err)) :
    main L cfg (.ok pri) fs = ⟨[Call.generate, Call.encode], [err], fs, Exit.fatal⟩ := by
  simp [main, callGenerate, callEncode, logFatal, generate, he]

theorem main_store_error (L : Lib) (cfg : Config) (pri : PrivateKey) (fs fs1 : FS)
    (a b : Bytes) (err : Error) (he : encode L pri pri.publicKey = (a, b, none))
    (hs : store cfg a b fs = (some err, fs1)) :
    main L cfg (.ok pri) fs =
      deferred cfg (some err)
        ⟨[Call.generate, Call.encode, Call.store], [err], fs1, Exit.returned⟩ := by
  simp [main, callGenerate, callEncode, callStore, logPrint, generate, he, hs]

theorem main_check_panic (L : Lib) (cfg : Config) (pri : PrivateKey) (fs fs1 : FS)
    (a b : Bytes) (msg : String) (he : encode L pri pri.publicKey = (a, b, none))
    (hs : store cfg a b fs = (none, fs1))
    (hc : check L cfg pri pri.publicKey fs1 = .panic msg) :
    main L cfg (.ok pri) fs =
      ⟨[Call.generate, Call.encode, Call.store, Call.check], [], fs1, Exit.panicked msg⟩ := by
  simp [main, callGenerate, callEncode, callStore, callCheck, panicWith, generate, he, hs, hc,
    deferred_none]

theorem main_check_error (L : Lib) (cfg : Config) (pri : PrivateKey) (fs fs1 : FS)
    (a b : Bytes) (err : Error) (he : encode L pri pri.publicKey = (a, b, none))
    (hs : store cfg a b fs = (none, fs1))
    (hc : check L cfg pri pri.publicKey fs1 = .ret (some err)) :
    main L cfg (.ok pri) fs =
      deferred cfg (some err)
        ⟨[Call.generate, Call.encode, Call.store, Call.check], [err], fs1,
          Exit.returned⟩ := by
  simp [main, callGenerate, callEncode, callStore, callCheck, logPrint, generate, he, hs, hc]

theorem main_success (L : Lib) (cfg : Config) (pri : PrivateKey) (fs fs1 : FS)
    (a b : Bytes) (he : encode L pri pri.publicKey = (a, b, none))
    (hs : store cfg a b fs = (none, fs1))
    (hc : check L cfg pri pri.publicKey fs1 = .ret none) :
    main L cfg (.ok pri) fs =
      ⟨[Call.generate, Call.encode, Call.store, Call.check], [addedLine cfg], fs1,
        Exit.returned⟩ := by
  simp [main, callGenerate, callEncode, callStore, callCheck, logPrint, generate, he, hs, hc,
    deferred_none]

/-- What a run does after a successful key generation, by cases on what
`encode`, `store` and `check` return. -/
theorem main_cases (L : Lib) (cfg : Config) (pri : PrivateKey) (fs : FS) :
    (∃ a b err, encode L pri pri.publicKey = (a, b, some err) ∧
      main L cfg (.ok pri) fs = ⟨[Call.generate, Call.encode], [err], fs, Exit.fatal⟩) ∨
    (∃ a b, encode L pri pri.publicKey = (a, b, none) ∧
      ((∃ serr fs1, store cfg a b fs = (some serr, fs1) ∧
          main L cfg (.ok pri) fs =
            deferred cfg (some serr)
              ⟨[Call.generate, Call.encode, Call.store], [serr], fs1, Exit.returned⟩) ∨
       (∃ fs1, store cfg a b fs = (none, fs1) ∧
          ((∃ msg, check L cfg pri pri.publicKey fs1 = .panic msg ∧
              main L cfg (.ok pri) fs =
                ⟨[Call.generate, Call.encode, Call.store, Call.check], [], fs1,
                  Exit.panicked msg⟩) ∨
           (∃ cerr, check L cfg pri pri.publicKey fs1 = .ret (some cerr) ∧
              main L cfg (.ok pri) fs =
                deferred cfg (some cerr)
                  ⟨[Call.generate, Call.encode, Call.store, Call.check], [cerr], fs1,
                    Exit.returned⟩) ∨
           (check L cfg pri pri.publicKey fs1 = .ret none ∧
              main L cfg (.ok pri) fs =
                ⟨[Call.generate, Call.encode, Call.store, Call.check], [addedLine cfg], fs1,
                  Exit.returned⟩))))) := by
  rcases he : encode L pri pri.publicKey with ⟨a, b, _ | eerr⟩
  · right
    refine ⟨a, b, rfl, ?_⟩
    rcases hs : store cfg a b fs with ⟨_ | serr, fs1⟩
    · right
      refine ⟨fs1, rfl, ?_⟩
      rcases hc : check L cfg pri pri.publicKey fs1 with (_ | cerr) | msg
      · exact Or.inr (Or.inr ⟨rfl, main_success L cfg pri fs fs1 a b he hs hc⟩)
      · exact Or.inr (Or.inl ⟨cerr, rfl, main_check_error L cfg pri fs fs1 a b cerr he hs hc⟩)
      · exact Or.inl ⟨msg, rfl, main_check_panic L cfg pri fs fs1 a b msg he hs hc⟩
    · left
      exact ⟨serr, fs1, rfl, main_store_error L cfg pri fs fs1 a b serr he hs⟩
  · left
    exact ⟨a, b, eerr, rfl, main_encode_error L cfg pri fs a b eerr he⟩

/-- What the deferred function does to a run that has not called `cleanup`,
when `err` is not nil. -/
theorem deferred_some_effect (cfg : Config) (err : Error) (r : Run) :
    Call.cleanup ∈ (deferred cfg (some err) r).calls ∧
    (deferred cfg (some err) r).fs = (cleanup cfg r.fs).2 ∧
    ((cleanup cfg r.fs).1 = none → (deferred cfg (some err) r).exit = r.exit) ∧
    (∀ cerr, (cleanup cfg r.fs).1 = some cerr →
      (deferred cfg (some err) r).exit = Exit.fatal ∧
      cerr ∈ (deferred cfg (some err) r).log) := by
  refine ⟨?_, deferred_some_fs cfg err r, ?_, ?_⟩
  · rw [deferred_some_calls]
    simp
  · intro h
    rw [deferred_some_ok cfg err r h]
  · intro cerr h
    rw [deferred_some_err cfg err cerr r h]
    simp

/-- C8: `main` calls `cleanup` if and only if `generate` and `encode` both
returned without error and then `store` returned an error, or `store` returned
none and `check` returned an error. In that case `cleanup` runs on the files
`store` left: the files at the end are the ones `cleanup` leaves, the run
returns when `cleanup` returns no error and ends in `log.Fatal` with the error
of `cleanup` otherwise. When `cleanup` is not called the files at the end are
the ones at the start or the ones `store` left. When `generate` or `encode`
returns an error the run calls none of `store`, `check` and `cleanup`, leaves the
files as they were and ends in `log.Fatal`. -/
theorem main_cleanup_policy (L : Lib) (cfg : Config) (gen : Except Error PrivateKey)
    (fs : FS) :
    (Call.cleanup ∈ (main L cfg gen fs).calls ↔
      ∃ pri pub encPri encPub,
        generate gen = (some pri, some pub, none) ∧
        encode L pri pub = (encPri, encPub, none) ∧
        ((∃ err, (store cfg encPri encPub fs).1 = some err) ∨
         ((store cfg encPri encPub fs).1 = none ∧
          ∃ err, check L cfg pri pub (store cfg encPri encPub fs).2 = .ret (some err)))) ∧
    (∀ pri pub encPri encPub,
      generate gen = (some pri, some pub, none) →
      encode L pri pub = (encPri, encPub, none) →
      ((∃ err, (store cfg encPri encPub fs).1 = some err) ∨
       ((store cfg encPri encPub fs).1 = none ∧
        ∃ err, check L cfg pri pub (store cfg encPri encPub fs).2 = .ret (some err))) →
      (main L cfg gen fs).fs = (cleanup cfg (store cfg encPri encPub fs).2).2 ∧
      ((cleanup cfg (store cfg encPri encPub fs).2).1 = none →
        (main L cfg gen fs).exit = Exit.returned) ∧
      (∀ cerr, (cleanup cfg (store cfg encPri encPub fs).2).1 = some cerr →
        (main L cfg gen fs).exit = Exit.fatal ∧ cerr ∈ (main L cfg gen fs).log)) ∧
    (Call.cleanup ∉ (main L cfg gen fs).calls →
      (main L cfg gen fs).fs = fs ∨
      ∃ pri pub encPri encPub,
        generate gen = (some pri, some pub, none) ∧
        encode L pri pub = (encPri, encPub, none) ∧
        (main L cfg gen fs).fs = (store cfg encPri encPub fs).2) ∧
    (((∃ err, (generate gen).2.2 = some err) ∨
      (∃ pri pub err, generate gen = (some pri, some pub, none) ∧
        (encode L pri pub).2.2 = some err)) →
      Call.store ∉ (main L cfg gen fs).calls ∧ Call.check ∉ (main L cfg gen fs).calls ∧
      Call.cleanup ∉ (main L cfg gen fs).calls ∧ (main L cfg gen fs).fs = fs ∧
      (main L cfg gen fs).exit = Exit.fatal) := by
  cases gen with
  | error gerr =>
    rw [main_generate_error]
    refine ⟨⟨fun h => ?_, ?_⟩, ?_, fun _ => Or.inl rfl, fun _ => ?_⟩
    · simp at h
    · rintro ⟨pri, pub, encPri, encPub, hg, _⟩
      simp [generate] at hg
    · intro pri pub encPri encPub hg
      simp [generate] at hg
    · simp
  | ok pri =>
    have hgen : generate (.ok pri) = (some pri, some pri.publicKey, none) := rfl
    have noGenErr : ¬ ∃ err, (generate (.ok pri)).2.2 = some err := by
      simp [generate]
    rcases main_cases L cfg pri fs with ⟨a, b, eerr, he, hm⟩ | ⟨a, b, he, hrest⟩
    · rw [hm]
      refine ⟨⟨fun h => ?_, ?_⟩, ?_, fun _ => Or.inl rfl, fun _ => ?_⟩
      · simp at h
      · rintro ⟨pri2, pub2, encPri, encPub, hg, he2, _⟩
        obtain ⟨rfl, rfl⟩ := generate_ok_unique pri pri2 pub2 hg
        rw [he] at he2
        simp at he2
      · intro pri2 pub2 encPri encPub hg he2
        obtain ⟨rfl, rfl⟩ := generate_ok_unique pri pri2 pub2 hg
        rw [he] at he2
        simp at he2
      · simp
    · have noEncErr : ¬ ((∃ err, (generate (.ok pri)).2.2 = some err) ∨
          (∃ pri2 pub2 err, generate (.ok pri) = (some pri2, some pub2, none) ∧
            (encode L pri2 pub2).2.2 = some err)) := by
        rintro (h | ⟨pri2, pub2, err, hg, h⟩)
        · exact noGenErr h
        · obtain ⟨rfl, rfl⟩ := generate_ok_unique pri pri2 pub2 hg
          rw [he] at h
          simp at h
      have same : ∀ pri2 pub2 encPri encPub,
          generate (.ok pri) = (some pri2, some pub2, none) →
          encode L pri2 pub2 = (encPri, encPub, none) →
          pri2 = pri ∧ pub2 = pri.publicKey ∧ encPri = a ∧ encPub = b := by
        intro pri2 pub2 encPri encPub hg he2
        obtain ⟨rfl, rfl⟩ := generate_ok_unique pri pri2 pub2 hg
        rw [he] at he2
        simp only [Prod.mk.injEq, and_true] at he2
        exact ⟨rfl, rfl, he2.1.symm, he2.2.symm⟩
      rcases hrest with ⟨serr, fs1, hs, hm⟩ | ⟨fs1, hs, hcheck⟩
      · have eff := deferred_some_effect cfg serr
          ⟨[Call.generate, Call.encode, Call.store], [serr], fs1, Exit.returned⟩
        rw [hm]
        refine ⟨⟨fun _ => ?_, fun _ => eff.1⟩, ?_, fun h => absurd eff.1 h,
          fun h => absurd h noEncErr⟩
        · refine ⟨pri, pri.publicKey, a, b, hgen, he, Or.inl ⟨serr, ?_⟩⟩
          rw [hs]
        · intro pri2 pub2 encPri encPub hg he2 _
          obtain ⟨rfl, rfl, rfl, rfl⟩ := same pri2 pub2 encPri encPub hg he2
          rw [hs]
          exact ⟨eff.2.1, eff.2.2.1, eff.2.2.2⟩
      · rcases hcheck with ⟨msg, hc, hm⟩ | ⟨cerr, hc, hm⟩ | ⟨hc, hm⟩
        · rw [hm]
          refine ⟨⟨fun h => ?_, ?_⟩, ?_, fun _ => Or.inr ?_, fun h => absurd h noEncErr⟩
          · simp at h
          · rintro ⟨pri2, pub2, encPri, encPub, hg, he2, h⟩
            obtain ⟨rfl, rfl, rfl, rfl⟩ := same pri2 pub2 encPri encPub hg he2
            rw [hs] at h
            simp [hc] at h
          · intro pri2 pub2 encPri encPub hg he2 h
            obtain ⟨rfl, rfl, rfl, rfl⟩ := same pri2 pub2 encPri encPub hg he2
            rw [hs] at h
            simp [hc] at h
          · refine ⟨pri, pri.publicKey, a, b, hgen, he, ?_⟩
            rw [hs]
        · have eff := deferred_some_effect cfg cerr
            ⟨[Call.generate, Call.encode, Call.store, Call.check], [cerr], fs1, Exit.returned⟩
          rw [hm]
          refine ⟨⟨fun _ => ?_, fun _ => eff.1⟩, ?_, fun h => absurd eff.1 h,
            fun h => absurd h noEncErr⟩
          · refine ⟨pri, pri.publicKey, a, b, hgen, he, Or.inr ?_⟩
            rw [hs]
            exact ⟨rfl, cerr, hc⟩
          · intro pri2 pub2 encPri encPub hg he2 _
            obtain ⟨rfl, rfl, rfl, rfl⟩ := same pri2 pub2 encPri encPub hg he2
            rw [hs]
            exact ⟨eff.2.1, eff.2.2.1, eff.2.2.2⟩
        · rw [hm]
          refine ⟨⟨fun h => ?_, ?_⟩, ?_, fun _ => Or.inr ?_, fun h => absurd h noEncErr⟩
          · simp at h
          · rintro ⟨pri2, pub2, encPri, encPub, hg, he2, h⟩
            obtain ⟨rfl, rfl, rfl, rfl⟩ := same pri2 pub2 encPri encPub hg he2
            rw [hs] at h
            simp [hc] at h
          · intro pri2 pub2 encPri encPub hg he2 h
            obtain ⟨rfl, rfl, rfl, rfl⟩ := same pri2 pub2 encPri encPub hg he2
            rw [hs] at h
            simp [hc] at h
          · refine ⟨pri, pri.publicKey, a, b, hgen, he, ?_⟩
            rw [hs]

/-- A run in which `store` fails calls `cleanup`, which removes the private-key
file and fails on the public-key path; a run in which key generation fails stops
there; a run in which `check` panics calls no `cleanup` and leaves the
public-key file. -/
theorem main_cleanup_policy_witness :
    Call.cleanup ∈ (main sampleLib defaultConfig (.ok keyA) publicDirFS).calls ∧
    ((main sampleLib defaultConfig (.ok keyA) publicDirFS).fs =
        (cleanup defaultConfig (store defaultConfig keyAPriStream keyAPubStream publicDirFS).2).2 ∧
      (main sampleLib defaultConfig (.ok keyA) publicDirFS).fs.named "private.pem" = none ∧
      (main sampleLib defaultConfig (.ok keyA) publicDirFS).exit = Exit.fatal) ∧
    (Call.store ∉ (main sampleLib defaultConfig (.error "EOF") emptyFS).calls ∧
      Call.check ∉ (main sampleLib defaultConfig (.error "EOF") emptyFS).calls ∧
      Call.cleanup ∉ (main sampleLib defaultConfig (.error "EOF") emptyFS).calls ∧
      (main sampleLib defaultConfig (.error "EOF") emptyFS).fs = emptyFS ∧
      (main sampleLib defaultConfig (.error "EOF") emptyFS).exit = Exit.fatal) ∧
    ((main sampleLib devNullConfig (.ok keyA) devNullFS).exit = Exit.panicked nilDeref ∧
      Call.cleanup ∉ (main sampleLib devNullConfig (.ok keyA) devNullFS).calls ∧
      (main sampleLib devNullConfig (.ok keyA) devNullFS).fs.named "public.pem" =
        some (Node.file 0o755 keyAPubStream)) :=
  ⟨(main_cleanup_policy sampleLib defaultConfig (.ok keyA) publicDirFS).1.2
      ⟨keyA, keyA.publicKey, keyAPriStream, keyAPubStream, rfl, rfl,
        Or.inl ⟨"open public.pem: is a directory", by decide⟩⟩,
    ⟨((main_cleanup_policy sampleLib defaultConfig (.ok keyA) publicDirFS).2.1
        keyA keyA.publicKey keyAPriStream keyAPubStream rfl rfl
        (Or.inl ⟨"open public.pem: is a directory", by decide⟩)).1,
      by decide,
      (((main_cleanup_policy sampleLib defaultConfig (.ok keyA) publicDirFS).2.1
        keyA keyA.publicKey keyAPriStream keyAPubStream rfl rfl
        (Or.inl ⟨"open public.pem: is a directory", by decide⟩)).2.2
        "remove public.pem: directory not empty" (by decide)).1⟩,
    (main_cleanup_policy sampleLib defaultConfig (.error "EOF") emptyFS).2.2.2
      (Or.inl ⟨"EOF", rfl⟩),
    ⟨by decide, by decide, by decide⟩⟩

theorem named_after_write (fs fs1 : FS) (n : String) (d : Bytes) (perm : Nat)
    (h : writeFile fs n d perm = (none, fs1)) :
    ∃ nd, fs1.named n = some nd ∧ nd ≠ Node.dir := by
  rcases writeFile_ok fs fs1 n d _ h with ⟨_, e⟩ | ⟨m, d0, _, _, e⟩ | ⟨hn, e⟩
  · rw [e]
    exact ⟨_, named_put_self fs n _, by simp⟩
  · rw [e]
    exact ⟨_, named_put_self fs n _, by simp⟩
  · rw [e]
    exact ⟨_, hn, by simp⟩

theorem named_other_after_write (fs fs1 : FS) (n n2 : String) (d : Bytes) (perm : Nat)
    (h : writeFile fs n d perm = (none, fs1)) (he : fs.entry n2 ≠ fs.entry n) :
    fs1.named n2 = fs.named n2 := by
  rcases writeFile_ok fs fs1 n d _ h with ⟨_, e⟩ | ⟨m, d0, _, _, e⟩ | ⟨_, e⟩
  · rw [e]
    simp [FS.named, FS.put, he]
  · rw [e]
    simp [FS.named, FS.put, he]
  · rw [e]

theorem cleanup_removes (cfg : Config) (fs : FS) (nd nd2 : Node)
    (h1 : fs.named cfg.privateFName = some nd) (hd1 : nd ≠ Node.dir)
    (h2 : fs.named cfg.publicFName = some nd2) (hd2 : nd2 ≠ Node.dir) :
    (cleanup cfg fs).2.named cfg.privateFName = none ∧
    (cleanup cfg fs).2.named cfg.publicFName = none := by
  have e1 : remove fs cfg.privateFName = (none, fs.drop cfg.privateFName) := by
    rcases remove_cases fs cfg.privateFName with ⟨hn, _⟩ | ⟨hn, _⟩ | ⟨_, _, _, e⟩
    · rw [h1] at hn
      cases hn
    · rw [h1] at hn
      cases hn
      exact absurd rfl hd1
    · exact e
  by_cases hpp : fs.entry cfg.publicFName = fs.entry cfg.privateFName
  · have hn : (fs.drop cfg.privateFName).named cfg.publicFName = none := by
      simp [FS.named, FS.drop, hpp]
    have e2 : remove (fs.drop cfg.privateFName) cfg.publicFName =
        (some ("remove " ++ cfg.publicFName ++ ": no such file or directory"),
          fs.drop cfg.privateFName) := by
      simp [remove, hn]
    rw [cleanup, e1]
    simp only []
    rw [e2]
    exact ⟨named_drop_self fs _, hn⟩
  · have hn : (fs.drop cfg.privateFName).named cfg.publicFName = some nd2 := by
      simpa [FS.named, FS.drop, hpp] using h2
    have e2 : remove (fs.drop cfg.privateFName) cfg.publicFName =
        (none, (fs.drop cfg.privateFName).drop cfg.publicFName) := by
      rcases remove_cases (fs.drop cfg.privateFName) cfg.publicFName with
        ⟨hn2, _⟩ | ⟨hn2, _⟩ | ⟨_, _, _, e⟩
      · rw [hn] at hn2
        cases hn2
      · rw [hn] at hn2
        cases hn2
        exact absurd rfl hd2
      · exact e
    rw [cleanup, e1]
    simp only []
    rw [e2]
    simp [FS.named, FS.drop]

/-- X1: in a run of `main` in which `store` returns no error and `check` returns
an error, neither the private-key path nor the public-key path is on disk when
the run ends. -/
theorem main_failed_check_removes_files (L : Lib) (cfg : Config) (pri : PrivateKey)
    (fs : FS) (encPri encPub : Bytes) (err : Error)
    (he : encode L pri pri.publicKey = (encPri, encPub, none))
    (hs : (store cfg encPri encPub fs).1 = none)
    (hc : check L cfg pri pri.publicKey (store cfg encPri encPub fs).2 = .ret (some err)) :
    (main L cfg (.ok pri) fs).fs.named cfg.privateFName = none ∧
    (main L cfg (.ok pri) fs).fs.named cfg.publicFName = none := by
  obtain ⟨fs1, fs2, w1, w2, e⟩ := store_ok cfg encPri encPub fs hs
  rw [e] at hc
  rw [main_check_error L cfg pri fs fs2 encPri encPub err he e hc, deferred_some_fs]
  obtain ⟨nd2, hn2, hd2⟩ := named_after_write fs1 fs2 _ _ _ w2
  obtain ⟨nd1, hn1, hd1⟩ := named_after_write fs fs1 _ _ _ w1
  by_cases hpp : fs1.entry cfg.privateFName = fs1.entry cfg.publicFName
  · have hn : fs2.named cfg.privateFName = some nd2 := by
      have e2 := entry_after_write fs1 fs2 _ _ _ w2
      simp only [FS.named, e2] at hn2 ⊢
      rw [hpp]
      exact hn2
    exact cleanup_removes cfg fs2 nd2 nd2 hn hd2 hn2 hd2
  · have hn : fs2.named cfg.privateFName = some nd1 := by
      rw [named_other_after_write fs1 fs2 _ _ _ _ w2 hpp]
      exact hn1
    exact cleanup_removes cfg fs2 nd1 nd2 hn hd1 hn2 hd2

/-- Both flags name `key.pem`: the file written last is read back as both
streams, `check` returns an error, and no file is left. -/
theorem main_failed_check_removes_files_witness :
    encode sampleLib keyA keyA.publicKey = (keyAPriStream, keyAPubStream, none) ∧
    (store sameNameConfig keyAPriStream keyAPubStream emptyFS).1 = none ∧
    check sampleLib sameNameConfig keyA keyA.publicKey
      (store sameNameConfig keyAPriStream keyAPubStream emptyFS).2 =
      .ret (some "private keys dont match") ∧
    ((main sampleLib sameNameConfig (.ok keyA) emptyFS).fs.named "key.pem" = none ∧
      (main sampleLib sameNameConfig (.ok keyA) emptyFS).fs.named "key.pem" = none) :=
  ⟨rfl, by decide, by decide,
    main_failed_check_removes_files sampleLib sameNameConfig keyA emptyFS keyAPriStream
      keyAPubStream "private keys dont match" rfl (by decide) (by decide)⟩

/-- X2: a run of `main` in which every step returns without error calls
`generate`, `encode`, `store` and `check` in this order and never `cleanup`, logs
the line naming the two files, returns, and leaves on disk what `store` wrote. -/
theorem main_success_run (L : Lib) (cfg : Config) (pri : PrivateKey) (fs : FS)
    (encPri encPub : Bytes)
    (he : encode L pri pri.publicKey = (encPri, encPub, none))
    (hs : (store cfg encPri encPub fs).1 = none)
    (hc : check L cfg pri pri.publicKey (store cfg encPri encPub fs).2 = .ret none) :
    (main L cfg (.ok pri) fs).calls =
      [Call.generate, Call.encode, Call.store, Call.check] ∧
    (main L cfg (.ok pri) fs).log = [addedLine cfg] ∧
    (main L cfg (.ok pri) fs).exit = Exit.returned ∧
    (main L cfg (.ok pri) fs).fs = (store cfg encPri encPub fs).2 := by
  rcases hst : store cfg encPri encPub fs with ⟨_ | serr, fs1⟩
  · rw [hst] at hc
    rw [main_success L cfg pri fs fs1 encPri encPub he hst hc]
    exact ⟨rfl, rfl, rfl, rfl⟩
  · rw [hst] at hs
    cases hs

/-- The run with the default paths on an empty disk. -/
theorem main_success_run_witness :
    encode sampleLib keyA keyA.publicKey = (keyAPriStream, keyAPubStream, none) ∧
    (store defaultConfig keyAPriStream keyAPubStream emptyFS).1 = none ∧
    check sampleLib defaultConfig keyA keyA.publicKey
      (store defaultConfig keyAPriStream keyAPubStream emptyFS).2 = .ret none ∧
    (main sampleLib defaultConfig (.ok keyA) emptyFS).log =
      ["\"private.pem\", \"public.pem\" were added to the current folder"] ∧
    (main sampleLib defaultConfig (.ok keyA) emptyFS).fs.named "private.pem" =
      some (Node.file 0o755 keyAPriStream) ∧
    (main sampleLib defaultConfig (.ok keyA) emptyFS).fs.named "public.pem" =
      some (Node.file 0o755 keyAPubStream) :=
  ⟨rfl, by decide, by decide,
    (main_success_run sampleLib defaultConfig keyA emptyFS keyAPriStream keyAPubStream
      rfl (by decide) (by decide)).2.1.trans (by decide),
    by decide, by decide⟩

end EcdsaGen
